import Mathlib

/-!
Verification of the kirana-store coordination layer: a shallow embedding of
the distributed lock service, the cache-aside helper, the transaction
workflow and the report aggregator, with theorems settling the specified
properties against the embedded code.
-/

/-! ## Lock service (src/core/services/distributed-lock.service.ts)

The Redis store backing the locks is modelled as an association list from
keys to stored token strings; a key that is present is a held, unexpired
lock, a key that is absent is free or expired.
-/

/-- Redis key/value state for the lock namespace. -/
abbrev RedisState : Type := List (String × String)

/-- Namespaced lock key, from cache.key.ts: REDIX prefix ++ "lock:" ++ key. -/
def LOCK.key (key : String) : String := "kirana-register:lock:" ++ key

/-- Default lock TTL in milliseconds, from cache.key.ts. -/
def LOCK.expiry : Nat := 10000

/-- DEFAULT_RETRY_COUNT from the lock service. -/
def DEFAULT_RETRY_COUNT : Nat := 3

/-- DEFAULT_RETRY_DELAY in milliseconds from the lock service. -/
def DEFAULT_RETRY_DELAY : Nat := 200

/-- Lookup in the Redis association-list state. -/
def RedisState.lookup (st : RedisState) (k : String) : Option String :=
  match st with
  | [] => none
  | p :: rest => if p.1 = k then some p.2 else RedisState.lookup rest k

/-- Delete a key from the Redis state. -/
def RedisState.del (st : RedisState) (k : String) : RedisState :=
  match st with
  | [] => []
  | p :: rest => if p.1 = k then RedisState.del rest k else p :: RedisState.del rest k

/-- The while loop of acquireLock. `avail i` tells whether the conditional
SET key value PX ttl NX succeeds at attempt number `i` (the key being absent
at that moment); this models the store as seen across retries, including
interference by other processes. Returns the result, the number of set
attempts performed, and the number of fixed backoff waits performed. -/
def acquireLoop (avail : Nat → Bool) (lockValue : String) (attempts remaining : Nat) :
    Option String × Nat × Nat :=
  match remaining with
  | 0 => (none, attempts, 0)
  | r + 1 =>
    if avail attempts then (some lockValue, attempts + 1, 0)
    else
      let next := acquireLoop avail lockValue (attempts + 1) r
      (next.1, next.2.1, next.2.2 + 1)

/-- DistributedLockService.acquireLock: generates a fresh token (passed here
as `lockValue`, the randomUUID outcome) and runs up to `retryCount`
conditional set attempts, waiting DEFAULT_RETRY_DELAY ms after each failed
attempt. Returns (token or none, set attempts performed, waits performed). -/
def DistributedLockService.acquireLock (avail : Nat → Bool) (lockValue : String)
    (retryCount : Nat := DEFAULT_RETRY_COUNT) : Option String × Nat × Nat :=
  acquireLoop avail lockValue 0 retryCount

/-- DistributedLockService.releaseLock: the Lua script reads the value at
the namespaced key and deletes the entry only when it equals the supplied
lockValue, returning 1 (here true) exactly in that case. -/
def DistributedLockService.releaseLock (st : RedisState) (key lockValue : String) :
    RedisState × Bool :=
  match RedisState.lookup st (LOCK.key key) with
  | some v =>
    if v = lockValue then (RedisState.del st (LOCK.key key), true) else (st, false)
  | none => (st, false)

/-- DistributedLockService.isLocked: existence check on the namespaced key. -/
def DistributedLockService.isLocked (st : RedisState) (key : String) : Bool :=
  (RedisState.lookup st (LOCK.key key)).isSome

/-! ## Cache service (CacheService, src/core/services/cache.service.ts)

The cache state is an association list from keys to stored value and TTL.
Values are generic in a type with a JavaScript truthiness function `tr`,
mirroring the runtime truthiness tests in the source. JSON serialization
round-trips faithfully and the serialized string of a stored value is never
empty, so the raw-string truthiness check in `get` reduces to presence.
Transport failures of the underlying Redis calls are modelled by the `fail`
flags; a raw Redis operation yields `Except Unit`. -/

/-- Cache state: key, stored value, stored TTL (seconds). -/
abbrev CacheState (α : Type) : Type := List (String × α × Option Nat)

/-- Lookup a cache entry (value and TTL) by key. -/
def CacheState.lookup (st : CacheState α) (k : String) : Option (α × Option Nat) :=
  match st with
  | [] => none
  | p :: rest => if p.1 = k then some p.2 else CacheState.lookup rest k

/-- Remove every entry under a key. -/
def CacheState.removeKey (st : CacheState α) (k : String) : CacheState α :=
  match st with
  | [] => []
  | p :: rest =>
    if p.1 = k then CacheState.removeKey rest k else p :: CacheState.removeKey rest k

/-- Overwrite-or-insert a cache entry. -/
def CacheState.store (st : CacheState α) (k : String) (v : α) (ttl : Option Nat) :
    CacheState α :=
  (k, v, ttl) :: CacheState.removeKey st k

/-- Raw redis.get: transport failure or the stored value. -/
def redisGet (fail : Bool) (st : CacheState α) (key : String) :
    Except Unit (Option α) :=
  if fail then Except.error () else Except.ok ((CacheState.lookup st key).map Prod.fst)

/-- Raw redis.set with optional EX expiry: transport failure or updated state. -/
def redisSet (fail : Bool) (st : CacheState α) (key : String) (v : α)
    (expiry : Option Nat) : Except Unit (CacheState α) :=
  if fail then Except.error () else Except.ok (CacheState.store st key v expiry)

/-- CacheService.get: returns the parsed stored value, or null when the key
is absent; any transport error is caught, logged and degraded to null. -/
def CacheService.get (fail : Bool) (st : CacheState α) (key : String) : Option α :=
  match redisGet fail st key with
  | Except.error _ => none
  | Except.ok v => v

/-- CacheService.set: stores the serialized value (with EX expiry when
given); any transport error is caught and swallowed, leaving the state
unchanged and raising nothing. -/
def CacheService.set (fail : Bool) (st : CacheState α) (key : String) (v : α)
    (expiry : Option Nat) : CacheState α :=
  match redisSet fail st key v expiry with
  | Except.error _ => st
  | Except.ok st2 => st2

/-- The miss path of CacheService.cached: invoke func; a result that is null
or falsy is returned as null without caching; otherwise the result is stored
with the given expiry and returned. The Bool records that func was invoked.
A failure of func propagates. -/
def cachedMiss (tr : α → Bool) (setFail : Bool) (st : CacheState α) (key : String)
    (expiry : Nat) (func : Except ε (Option α)) :
    Except ε (Option α × CacheState α × Bool) :=
  match func with
  | Except.error e => Except.error e
  | Except.ok result =>
    match result with
    | none => Except.ok (none, st, true)
    | some r =>
      if tr r then Except.ok (some r, CacheService.set setFail st key r (some expiry), true)
      else Except.ok (none, st, true)

/-- CacheService.cached: reads the key; a truthy cached value is returned
without invoking func (Bool false); otherwise the miss path runs. -/
def CacheService.cached (tr : α → Bool) (getFail setFail : Bool) (st : CacheState α)
    (key : String) (expiry : Nat) (func : Except ε (Option α)) :
    Except ε (Option α × CacheState α × Bool) :=
  match CacheService.get getFail st key with
  | some v =>
    if tr v then Except.ok (some v, st, false)
    else cachedMiss tr setFail st key expiry func
  | none => cachedMiss tr setFail st key expiry func

/-! ## Transaction workflow (TransactionService, transaction service source)

Amounts are rationals (JavaScript numbers used exactly). The rate table
returned by the external provider maps every currency of the enum to a
numeric rate, modelled as a total function. Rate-table values are JavaScript
objects, hence always truthy. -/

/-- Transaction type enum. -/
inductive TransactionType where
  | credit
  | debit
deriving DecidableEq, Repr

/-- Currency enum; the conversion logic only distinguishes INR from the
rest. -/
inductive Currency where
  | INR
  | USD
  | EUR
  | GBP
deriving DecidableEq, Repr

/-- Rate table from the fx-rates provider: currency code to numeric rate. -/
abbrev RateTable : Type := Currency → ℚ

/-- JavaScript truthiness of a rate-table value: a non-null object, always
truthy. -/
def rateTableTruthy : RateTable → Bool := fun _ => true

/-- CURRENCY_RATES cache key, from cache.key.ts. -/
def CURRENCY_RATES.key : String := "kirana-register:currency-rates"

/-- CURRENCY_RATES expiry in seconds, from cache.key.ts. -/
def CURRENCY_RATES.expiry : Nat := 3600

/-- Application-level error outcomes of the workflow. -/
inductive AppError where
  | conflict
  | serviceUnavailable
  | persistenceError
  | typeError
deriving DecidableEq, Repr

/-- Calendar timestamp; defined here, used by createTransaction records and
by the report aggregator below. Month is 1 to 12, day is 1-based,
ms is the millisecond offset within the day (UTC). -/
structure DateTime where
  year : Nat
  month : Nat
  day : Nat
  ms : Nat
deriving DecidableEq, Repr

/-- A persisted transaction record. -/
structure Transaction where
  storeId : String
  amount : ℚ
  description : Option String
  type : TransactionType
  currency : Currency
  amountInINR : ℚ
  createdBy : String
  createdAt : DateTime
deriving DecidableEq, Repr

/-- The environment of one createTransaction invocation: the per-attempt
availability of the lock key, the fresh randomUUID value, the cache state
and its transport-failure flags, the outcome of the axios call to the rate
provider (error means the HTTP call failed), whether the repository create
succeeds, the persisted collection, and the creation timestamp. -/
structure CreateEnv where
  lockAvail : Nat → Bool
  newToken : String
  cacheState : CacheState RateTable
  getFail : Bool
  setFail : Bool
  fetchResult : Except Unit RateTable
  persistOk : Bool
  db : List Transaction
  now : DateTime

/-- The produce function passed to cached by getCurrencyRates: the axios
call returns response.data.rates, and any error is caught and rethrown as
ServiceUnavailableException. -/
def fetchRatesFunc (env : CreateEnv) : Except AppError (Option RateTable) :=
  match env.fetchResult with
  | Except.error _ => Except.error AppError.serviceUnavailable
  | Except.ok rates => Except.ok (some rates)

/-- TransactionService.getCurrencyRates: cached fetch of the provider rates
under the CURRENCY_RATES key and expiry. Returns the rates (or null), the
cache state after the call, and whether the produce function was invoked. -/
def TransactionService.getCurrencyRates (env : CreateEnv) :
    Except AppError (Option RateTable × CacheState RateTable × Bool) :=
  CacheService.cached rateTableTruthy env.getFail env.setFail env.cacheState
    CURRENCY_RATES.key CURRENCY_RATES.expiry (fetchRatesFunc env)

/-- TransactionService.convertToINR: an INR amount is returned unchanged
without touching the rates; otherwise the rates are fetched and the result
is (amount / rates[currency]) * rates.INR. The Bool records whether
getCurrencyRates was invoked. Reading a field of a null rates object would
raise a TypeError. -/
def TransactionService.convertToINR (env : CreateEnv) (amount : ℚ)
    (currency : Currency) :
    Except AppError (ℚ × CacheState RateTable × Bool) :=
  if currency = Currency.INR then Except.ok (amount, env.cacheState, false)
  else
    match TransactionService.getCurrencyRates env with
    | Except.error e => Except.error e
    | Except.ok (none, _, _) => Except.error AppError.typeError
    | Except.ok (some rates, st2, _) =>
      Except.ok ((amount / rates currency) * rates Currency.INR, st2, true)

/-- The dto of createTransaction. -/
structure CreateTransactionDto where
  amount : ℚ
  description : Option String
  type : TransactionType
  currency : Currency

/-- The authenticated user fields used by createTransaction. -/
structure UserInfo where
  id : String
  storeId : String

/-- Outcome of one createTransaction invocation: the returned value or
error, the persisted collection afterwards, every releaseLock invocation
(key and token) performed, and the cache state afterwards. -/
structure CreateOutcome where
  result : Except AppError Transaction
  db : List Transaction
  releaseCalls : List (String × String)
  cacheState : CacheState RateTable

/-- TransactionService.createTransaction: acquires the per-store lock (a
conflict is raised when no lock is obtained, without any release); inside
try, converts the amount to INR and persists the record; the finally block
releases the lock with the acquisition key and token on every exit path. -/
def TransactionService.createTransaction (env : CreateEnv) (user : UserInfo)
    (dto : CreateTransactionDto) : CreateOutcome :=
  let lockKey := "transaction:" ++ user.storeId
  match (DistributedLockService.acquireLock env.lockAvail env.newToken).1 with
  | none => ⟨Except.error AppError.conflict, env.db, [], env.cacheState⟩
  | some lockValue =>
    match TransactionService.convertToINR env dto.amount dto.currency with
    | Except.error e =>
      ⟨Except.error e, env.db, [(lockKey, lockValue)], env.cacheState⟩
    | Except.ok (amountInINR, st2, _) =>
      if env.persistOk then
        let tx : Transaction :=
          { storeId := user.storeId, amount := dto.amount,
            description := dto.description, type := dto.type,
            currency := dto.currency, amountInINR := amountInINR,
            createdBy := user.id, createdAt := env.now }
        ⟨Except.ok tx, env.db ++ [tx], [(lockKey, lockValue)], st2⟩
      else
        ⟨Except.error AppError.persistenceError, env.db,
          [(lockKey, lockValue)], st2⟩

/-! ## Date arithmetic (JavaScript Date semantics, UTC, proleptic Gregorian)

generateReport computes endDate with Date.setDate(getDate() + 7) and
Date.setMonth(getMonth() + 1); both set the field and normalize day-of-month
overflow into the following months. Mongo $dayOfWeek yields 1 (Sunday) to
7 (Saturday), $month yields 1 to 12, $year the year, all on the stored
createdAt. -/

/-- Gregorian leap year. -/
def isLeap (y : Nat) : Bool := (y % 4 = 0 && y % 100 != 0) || y % 400 = 0

/-- Number of days in a month (month is 1 to 12). -/
def daysInMonth (y m : Nat) : Nat :=
  match m with
  | 2 => if isLeap y then 29 else 28
  | 4 => 30
  | 6 => 30
  | 9 => 30
  | 11 => 30
  | _ => 31

/-- Days in all years strictly before year y (year 1 is the first). -/
def daysBeforeYear (y : Nat) : Nat :=
  365 * (y - 1) + (y - 1) / 4 - (y - 1) / 100 + (y - 1) / 400

/-- One extra day in leap years, for the cumulative month table. -/
def leapDay (y : Nat) : Nat := if isLeap y then 1 else 0

/-- Days in the months of year y strictly before month m. -/
def daysBeforeMonth (y m : Nat) : Nat :=
  let l := leapDay y
  match m with
  | 1 => 0
  | 2 => 31
  | 3 => 59 + l
  | 4 => 90 + l
  | 5 => 120 + l
  | 6 => 151 + l
  | 7 => 181 + l
  | 8 => 212 + l
  | 9 => 243 + l
  | 10 => 273 + l
  | 11 => 304 + l
  | _ => 334 + l

/-- Day ordinal of a date: 0001-01-01 has ordinal 0 (and was a Monday). -/
def DateTime.ordinal (dt : DateTime) : Nat :=
  daysBeforeYear dt.year + daysBeforeMonth dt.year dt.month + (dt.day - 1)

/-- Millisecond timestamp of a DateTime, the order used by the Mongo
comparisons on createdAt. -/
def DateTime.toMs (dt : DateTime) : Nat :=
  DateTime.ordinal dt * 86400000 + dt.ms

/-- Step to the following month. -/
def rollMonth (y m : Nat) : Nat × Nat :=
  if m = 12 then (y + 1, 1) else (y, m + 1)

/-- JavaScript Date field normalization: while the day-of-month overflows
the month, spill into the following month. Day overflow from setDate(+7) or
setMonth(+1) spills at most twice, so fuel 2 is exact. -/
def normDays (fuel : Nat) (y m d ms : Nat) : DateTime :=
  match fuel with
  | 0 => ⟨y, m, d, ms⟩
  | fuel + 1 =>
    if d ≤ daysInMonth y m then ⟨y, m, d, ms⟩
    else
      let ym := rollMonth y m
      normDays fuel ym.1 ym.2 (d - daysInMonth y m) ms

/-- JavaScript endDate.setDate(endDate.getDate() + 7). -/
def jsSetDatePlus7 (dt : DateTime) : DateTime :=
  normDays 2 dt.year dt.month (dt.day + 7) dt.ms

/-- JavaScript endDate.setMonth(endDate.getMonth() + 1). -/
def jsSetMonthPlus1 (dt : DateTime) : DateTime :=
  let ym := rollMonth dt.year dt.month
  normDays 2 ym.1 ym.2 dt.day dt.ms

/-- Mongo $dayOfWeek on a stored date: 1 (Sunday) to 7 (Saturday). -/
def dayOfWeekMongo (dt : DateTime) : Nat :=
  (DateTime.ordinal dt + 1) % 7 + 1

/-! ## Report aggregator (generateReport, calculateSummary) -/

/-- The durationType argument of generateReport. -/
inductive DurationType where
  | week
  | month
deriving DecidableEq, Repr

/-- The groupBy argument of generateReport: the Mongo operator applied to
createdAt in the first group stage. -/
inductive GroupBy where
  | dayOfWeek
  | month
  | year
deriving DecidableEq, Repr

/-- The time-period key the chosen Mongo operator extracts from createdAt. -/
def groupKeyOf (gb : GroupBy) (dt : DateTime) : Nat :=
  match gb with
  | GroupBy.dayOfWeek => dayOfWeekMongo dt
  | GroupBy.month => dt.month
  | GroupBy.year => dt.year

/-- Per-type entry pushed into a bucket by the second group stage. -/
structure TypeBucket where
  type : TransactionType
  totalAmount : ℚ
  count : Nat
deriving DecidableEq, Repr

/-- A report bucket: the time-period key and its per-type entries. -/
structure Bucket where
  timePeriod : Nat
  transactions : List TypeBucket
deriving DecidableEq, Repr

/-- The report summary document. netFlow is optional because the summary
aggregation emits documents without a netFlow field; only the hard-coded
empty-result fallback object carries one. -/
structure Summary where
  totalCredit : ℚ
  totalDebit : ℚ
  transactionCount : Nat
  netFlow : Option ℚ
deriving DecidableEq, Repr

/-- The report response shape. -/
structure Report where
  startDate : DateTime
  endDate : DateTime
  transactions : List Bucket
  summary : Summary
deriving DecidableEq, Repr

/-- The $match stage shared by the report pipeline and the summary pipeline:
same storeId and createdAt in [startDate, endDate). -/
def matchFilter (storeId : String) (startDate endDate : DateTime)
    (t : Transaction) : Bool :=
  t.storeId = storeId && DateTime.toMs startDate ≤ DateTime.toMs t.createdAt
    && DateTime.toMs t.createdAt < DateTime.toMs endDate

/-- Accumulate one matched document into the first $group stage: key is
(timePeriod, type), accumulators are the amountInINR sum and the count. -/
def upsertStage1 (acc : List ((Nat × TransactionType) × ℚ × Nat))
    (k : Nat × TransactionType) (amt : ℚ) :
    List ((Nat × TransactionType) × ℚ × Nat) :=
  match acc with
  | [] => [(k, amt, 1)]
  | (k2, a, c) :: rest =>
    if k2 = k then (k2, a + amt, c + 1) :: rest
    else (k2, a, c) :: upsertStage1 rest k amt

/-- First $group stage over the matched documents, groups in first-seen
order. -/
def groupStage1 (gb : GroupBy) (ts : List Transaction) :
    List ((Nat × TransactionType) × ℚ × Nat) :=
  List.foldl
    (fun acc t => upsertStage1 acc (groupKeyOf gb t.createdAt, t.type) t.amountInINR)
    [] ts

/-- Push one stage-one group into its time-period bucket for the second
$group stage. -/
def upsertStage2 (acc : List Bucket) (k : Nat) (tb : TypeBucket) : List Bucket :=
  match acc with
  | [] => [⟨k, [tb]⟩]
  | b :: rest =>
    if b.timePeriod = k then ⟨b.timePeriod, b.transactions ++ [tb]⟩ :: rest
    else b :: upsertStage2 rest k tb

/-- Second $group stage: regroup by time period alone, pushing
{type, totalAmount, count}. -/
def groupStage2 (l : List ((Nat × TransactionType) × ℚ × Nat)) : List Bucket :=
  List.foldl (fun acc e => upsertStage2 acc e.1.1 ⟨e.1.2, e.2.1, e.2.2⟩) [] l

/-- The descending order on buckets used by the final $sort stage on _id. -/
def bucketGE (a b : Bucket) : Prop := b.timePeriod ≤ a.timePeriod

instance : DecidableRel bucketGE := fun a b => Nat.decLe b.timePeriod a.timePeriod

instance : IsTotal Bucket bucketGE := ⟨fun a b => Nat.le_total b.timePeriod a.timePeriod⟩

instance : IsTrans Bucket bucketGE := ⟨fun _ _ _ h h2 => Nat.le_trans h2 h⟩

/-- The final stage of the pipeline: sort buckets by _id descending. -/
def sortDesc (l : List Bucket) : List Bucket :=
  List.insertionSort bucketGE l

/-- Sum of amountInINR over documents of the given type, for the summary
conditional accumulators. -/
def sumAmountOfType (ty : TransactionType) (ts : List Transaction) : ℚ :=
  List.foldr (fun t acc => (if t.type = ty then t.amountInINR else 0) + acc) 0 ts

/-- TransactionService.calculateSummary: one $group with _id null computes
totalCredit, totalDebit and transactionCount over the matched documents; it
emits no netFlow field. With no matched document the pipeline yields no
row and the hard-coded all-zero fallback (which does carry netFlow 0) is
returned. -/
def TransactionService.calculateSummary (db : List Transaction) (storeId : String)
    (startDate endDate : DateTime) : Summary :=
  let matched := List.filter (matchFilter storeId startDate endDate) db
  match matched with
  | [] => ⟨0, 0, 0, some 0⟩
  | _ :: _ =>
    ⟨sumAmountOfType TransactionType.credit matched,
     sumAmountOfType TransactionType.debit matched,
     matched.length, none⟩

/-- TransactionService.generateReport: computes the exclusive endDate from
the duration type, runs the match-group-group-sort pipeline, and attaches
the independently computed summary. groupBy defaults to $dayOfWeek. -/
def TransactionService.generateReport (db : List Transaction) (storeId : String)
    (durationType : DurationType) (startDate : DateTime)
    (gb : GroupBy := GroupBy.dayOfWeek) : Report :=
  let endDate :=
    match durationType with
    | DurationType.week => jsSetDatePlus7 startDate
    | DurationType.month => jsSetMonthPlus1 startDate
  let matched := List.filter (matchFilter storeId startDate endDate) db
  ⟨startDate, endDate, sortDesc (groupStage2 (groupStage1 gb matched)),
    TransactionService.calculateSummary db storeId startDate endDate⟩

/-! ## Transaction controller (transaction.controller.ts)

The weekly and monthly report endpoints pass store, duration and date only;
the groupBy parameter is left to its default. -/

/-- TransactionController.getWeeklyReport. -/
def TransactionController.getWeeklyReport (db : List Transaction)
    (userStoreId : String) (date : DateTime) : Report :=
  TransactionService.generateReport db userStoreId DurationType.week date

/-- TransactionController.getMonthlyReport. -/
def TransactionController.getMonthlyReport (db : List Transaction)
    (userStoreId : String) (date : DateTime) : Report :=
  TransactionService.generateReport db userStoreId DurationType.month date

/-! ## Theorems: lock service -/

/-- Deleting a key removes its binding. -/
theorem lookup_del_self (st : RedisState) (k : String) :
    RedisState.lookup (RedisState.del st k) k = none := by
  induction st with
  | nil => rfl
  | cons a rest ih =>
    by_cases h : a.1 = k
    · simpa [RedisState.del, RedisState.lookup, h] using ih
    · simpa [RedisState.del, RedisState.lookup, h] using ih

/-- C2: releaseLock returns true exactly when the backing entry exists with
the supplied token as its stored value; in that case the entry is deleted,
and in every other case the store is left unchanged and false is returned,
with no error raised. -/
theorem releaseLock_checkAndDelete (st : RedisState) (key token : String) :
    ((DistributedLockService.releaseLock st key token).2 = true ↔
      RedisState.lookup st (LOCK.key key) = some token) ∧
    (RedisState.lookup st (LOCK.key key) = some token →
      RedisState.lookup (DistributedLockService.releaseLock st key token).1
          (LOCK.key key) = none) ∧
    (RedisState.lookup st (LOCK.key key) ≠ some token →
      DistributedLockService.releaseLock st key token = (st, false)) := by
  unfold DistributedLockService.releaseLock
  cases h : RedisState.lookup st (LOCK.key key) with
  | none => simp [h]
  | some v =>
    by_cases hv : v = token
    · subst hv
      simp [h, lookup_del_self]
    · simp [h, hv]

/-- Witness for C2 at a concrete store: a mismatched token leaves the lock
intact and returns false. -/
theorem releaseLock_checkAndDelete_witness :
    DistributedLockService.releaseLock [(LOCK.key "store-1", "tok-1")] "store-1" "tok-2"
      = ([(LOCK.key "store-1", "tok-1")], false) :=
  (releaseLock_checkAndDelete [(LOCK.key "store-1", "tok-1")] "store-1" "tok-2").2.2
    (by decide)

/-- The loop performs at most `a + r` total attempts when entered with
`attempts = a` and `remaining = r`. -/
theorem acquireLoop_attempts_le (avail : Nat → Bool) (tok : String) (r : Nat) :
    ∀ a, (acquireLoop avail tok a r).2.1 ≤ a + r := by
  induction r with
  | zero => intro a; simp [acquireLoop]
  | succ r ih =>
    intro a
    unfold acquireLoop
    by_cases h : avail a
    · simp [h]
    · simp [h]
      have := ih (a + 1)
      omega

/-- When every remaining attempt finds the key present the loop exhausts
its budget: no token, one set attempt and one backoff wait per iteration. -/
theorem acquireLoop_all_fail (avail : Nat → Bool) (tok : String) (r : Nat) :
    ∀ a, (∀ i, a ≤ i → i < a + r → avail i = false) →
      acquireLoop avail tok a r = (none, a + r, r) := by
  induction r with
  | zero => intro a _; simp [acquireLoop]
  | succ r ih =>
    intro a h
    unfold acquireLoop
    have ha : avail a = false := h a le_rfl (by omega)
    simp [ha]
    have hrec := ih (a + 1) (fun i h1 h2 => h i (by omega) (by omega))
    rw [hrec]
    simp
    omega

/-- When attempt j is the first to find the key absent, the loop returns
the token right there: j + 1 set attempts in total and one backoff wait
after each of the j failed attempts. -/
theorem acquireLoop_first_success (avail : Nat → Bool) (tok : String) (r : Nat) :
    ∀ a j, a ≤ j → j < a + r → avail j = true →
      (∀ i, a ≤ i → i < j → avail i = false) →
      acquireLoop avail tok a r = (some tok, j + 1, j - a) := by
  induction r with
  | zero => intro a j h1 h2 _ _; omega
  | succ r ih =>
    intro a j h1 h2 hj hprev
    unfold acquireLoop
    by_cases h : a = j
    · subst h
      simp [hj]
    · have ha : avail a = false := hprev a le_rfl (by omega)
      simp [ha]
      have hrec := ih (a + 1) j (by omega) (by omega) hj (fun i hi1 hi2 => hprev i (by omega) hi2)
      rw [hrec]
      simp
      omega

/-- C4: acquireLock performs at most retryCount (default 3) conditional
set-if-absent attempts, with the fixed 200 ms backoff waited once after
each failed attempt (hence between consecutive attempts); the first attempt
that finds the key absent returns the freshly generated token immediately,
and when every attempt finds the key present - in particular while another
holder keeps the lock unexpired - the call returns none, not an error,
after exactly retryCount attempts. -/
theorem acquireLock_retry_budget (avail : Nat → Bool) (token : String) (n : Nat) :
    DEFAULT_RETRY_COUNT = 3 ∧ DEFAULT_RETRY_DELAY = 200 ∧
    (DistributedLockService.acquireLock avail token n).2.1 ≤ n ∧
    ((∀ i, i < n → avail i = false) →
      DistributedLockService.acquireLock avail token n = (none, n, n)) ∧
    (∀ j, j < n → avail j = true → (∀ i, i < j → avail i = false) →
      DistributedLockService.acquireLock avail token n = (some token, j + 1, j)) := by
  refine ⟨rfl, rfl, ?_, ?_, ?_⟩
  · simpa [DistributedLockService.acquireLock] using acquireLoop_attempts_le avail token n 0
  · intro h
    simpa [DistributedLockService.acquireLock] using
      acquireLoop_all_fail avail token n 0 (fun i _ h2 => h i (by omega))
  · intro j hj hja hprev
    simpa [DistributedLockService.acquireLock] using
      acquireLoop_first_success avail token n 0 j (by omega) (by omega) hja
        (fun i _ h2 => hprev i h2)

/-- Witness for C4: with the key held throughout, the default budget of 3
attempts and 3 backoff waits is exhausted and none is returned; with the
key freed before the second attempt, the token is returned after 2 attempts
and a single backoff wait. -/
theorem acquireLock_retry_budget_witness :
    DistributedLockService.acquireLock (fun _ => false) "token-a" DEFAULT_RETRY_COUNT
        = (none, 3, 3) ∧
    DistributedLockService.acquireLock (fun i => decide (i = 1)) "token-b" DEFAULT_RETRY_COUNT
        = (some "token-b", 2, 1) := by
  constructor
  · exact (acquireLock_retry_budget (fun _ => false) "token-a" DEFAULT_RETRY_COUNT).2.2.2.1
      (fun i _ => rfl)
  · exact (acquireLock_retry_budget (fun i => decide (i = 1)) "token-b" DEFAULT_RETRY_COUNT).2.2.2.2
      1 (by decide) (by decide) (by intro i hi; simp only [decide_eq_false_iff_not]; omega)

/-! ## Theorems: cache service -/

/-- JavaScript truthiness of a number: zero is falsy. -/
def jsNumberTruthy : ℚ → Bool := fun q => decide (q ≠ 0)

/-- A concrete cache state holding the value 5 under "rates". -/
def cacheStateW : CacheState ℚ := [("rates", 5, some 60)]

/-- C7: cache transport errors never propagate: get degrades a failing
store read to a miss (none), set swallows a failing store write and leaves
the state unchanged without raising, while a failure raised by the produce
function inside cached is always propagated to the caller. -/
theorem cache_transport_errors_swallowed {α ε : Type} (tr : α → Bool)
    (st : CacheState α) (key : String) (v : α) (ttl : Option Nat)
    (expiry : Nat) (sf : Bool) (e : ε) :
    CacheService.get true st key = none ∧
    CacheService.set true st key v ttl = st ∧
    (∀ gf, (∀ w, CacheService.get gf st key = some w → tr w = false) →
      CacheService.cached tr gf sf st key expiry (Except.error e) = Except.error e) := by
  refine ⟨rfl, rfl, ?_⟩
  intro gf hmiss
  unfold CacheService.cached
  cases hget : CacheService.get gf st key with
  | none => rfl
  | some w => simp [hmiss w hget, cachedMiss]

/-- Witness for C7 at a concrete cache state and key. -/
theorem cache_transport_errors_swallowed_witness :
    CacheService.get true cacheStateW "absent" = none ∧
    CacheService.set true cacheStateW "absent" 7 (some 60) = cacheStateW ∧
    CacheService.cached jsNumberTruthy false false cacheStateW "absent" 60
        (Except.error AppError.serviceUnavailable) = Except.error AppError.serviceUnavailable := by
  have h := cache_transport_errors_swallowed (α := ℚ) (ε := AppError) jsNumberTruthy
    cacheStateW "absent" 7 (some 60) 60 false AppError.serviceUnavailable
  refine ⟨h.1, h.2.1, h.2.2 false ?_⟩
  intro w hw
  rw [show CacheService.get false cacheStateW "absent" = none from rfl] at hw
  exact Option.noConfusion hw

/-- C6 counterexample: on an empty cache, a produce call that yields the
value 0 (a falsy JavaScript number, but a value, not "no value") makes
cached return none and store nothing, instead of storing 0 under the key
with the TTL and returning it as the claim states. -/
theorem cached_falsy_produce_counterexample :
    CacheService.cached jsNumberTruthy false false ([] : CacheState ℚ) "rates" 60
        (Except.ok (some (0 : ℚ)) : Except Unit (Option ℚ))
      = Except.ok (none, ([] : CacheState ℚ), true) ∧
    ((none : Option ℚ) ≠ some (0 : ℚ)) ∧
    (CacheState.store ([] : CacheState ℚ) "rates" 0 (some 60) ≠ ([] : CacheState ℚ)) := by
  exact ⟨rfl, by decide, by decide⟩

/-- C6 amended: on a cache hit whose value is truthy, cached returns the
cached value without invoking produce; when every cached value under the
key is falsy or the key misses, produce is invoked: a produce result of
none or of a falsy value is returned as none with nothing stored, and a
truthy produce result is stored under the key with the given TTL and
returned. -/
theorem cached_amended {α ε : Type} (tr : α → Bool) (gf sf : Bool)
    (st : CacheState α) (key : String) (expiry : Nat) (func : Except ε (Option α)) :
    (∀ v, CacheService.get gf st key = some v → tr v = true →
      CacheService.cached tr gf sf st key expiry func = Except.ok (some v, st, false)) ∧
    ((∀ v, CacheService.get gf st key = some v → tr v = false) →
      ((func = Except.ok none →
          CacheService.cached tr gf sf st key expiry func = Except.ok (none, st, true)) ∧
       (∀ r, func = Except.ok (some r) → tr r = false →
          CacheService.cached tr gf sf st key expiry func = Except.ok (none, st, true)) ∧
       (∀ r, func = Except.ok (some r) → tr r = true →
          CacheService.cached tr gf sf st key expiry func
            = Except.ok (some r, CacheService.set sf st key r (some expiry), true)))) := by
  constructor
  · intro v hv htr
    unfold CacheService.cached
    rw [hv]
    simp [htr]
  · intro hmiss
    have hcached : CacheService.cached tr gf sf st key expiry func
        = cachedMiss tr sf st key expiry func := by
      unfold CacheService.cached
      cases hget : CacheService.get gf st key with
      | none => rfl
      | some w => simp [hmiss w hget]
    refine ⟨?_, ?_, ?_⟩
    · intro hf
      rw [hcached, hf]
      rfl
    · intro r hf htr
      rw [hcached, hf]
      simp [cachedMiss, htr]
    · intro r hf htr
      rw [hcached, hf]
      simp [cachedMiss, htr]

/-- Witness for the amended C6: a truthy hit is served without invoking
produce, and on a miss a truthy produced value is stored and returned. -/
theorem cached_amended_witness :
    CacheService.cached jsNumberTruthy false false cacheStateW "rates" 60
        (Except.ok (some (9 : ℚ)) : Except Unit (Option ℚ))
      = Except.ok (some 5, cacheStateW, false) ∧
    CacheService.cached jsNumberTruthy false false ([] : CacheState ℚ) "rates" 60
        (Except.ok (some (9 : ℚ)) : Except Unit (Option ℚ))
      = Except.ok (some 9, [("rates", (9 : ℚ), some 60)], true) := by
  constructor
  · exact (cached_amended jsNumberTruthy false false cacheStateW "rates" 60 _).1 5 rfl (by decide)
  · have h := (cached_amended jsNumberTruthy false false ([] : CacheState ℚ) "rates" 60
      (Except.ok (some (9 : ℚ)) : Except Unit (Option ℚ))).2 ?_
    · exact h.2.2 9 rfl (by decide)
    · intro v hv
      rw [show CacheService.get false ([] : CacheState ℚ) "rates" = none from rfl] at hv
      exact Option.noConfusion hv

/-- C9: cached can neither cache nor serve falsy values: a falsy produce
result is returned as none with nothing stored; a falsy value already
stored under the key is treated as a miss, and the produce function is
then invoked (invocation flag true) on every such call. -/
theorem cached_falsy_values {α ε : Type} (tr : α → Bool) (gf sf : Bool)
    (st : CacheState α) (key : String) (expiry : Nat) (func : Except ε (Option α)) :
    (∀ r, func = Except.ok (some r) → tr r = false →
      (∀ v, CacheService.get gf st key = some v → tr v = false) →
      CacheService.cached tr gf sf st key expiry func = Except.ok (none, st, true)) ∧
    (∀ v, CacheService.get gf st key = some v → tr v = false →
      CacheService.cached tr gf sf st key expiry func
        = cachedMiss tr sf st key expiry func) ∧
    (∀ v r, CacheService.get gf st key = some v → tr v = false →
      func = Except.ok r →
      ∃ x st2, CacheService.cached tr gf sf st key expiry func
        = Except.ok (x, st2, true)) := by
  have hmisspath : ∀ v, CacheService.get gf st key = some v → tr v = false →
      CacheService.cached tr gf sf st key expiry func
        = cachedMiss tr sf st key expiry func := by
    intro v hv htr
    unfold CacheService.cached
    rw [hv]
    simp [htr]
  refine ⟨?_, hmisspath, ?_⟩
  · intro r hf htr hmiss
    have hcached : CacheService.cached tr gf sf st key expiry func
        = cachedMiss tr sf st key expiry func := by
      unfold CacheService.cached
      cases hget : CacheService.get gf st key with
      | none => rfl
      | some w => simp [hmiss w hget]
    rw [hcached, hf]
    simp [cachedMiss, htr]
  · intro v r hv htr hf
    rw [hmisspath v hv htr, hf]
    cases r with
    | none => exact ⟨none, st, rfl⟩
    | some r2 =>
      by_cases htr2 : tr r2
      · exact ⟨some r2, CacheService.set sf st key r2 (some expiry), by simp [cachedMiss, htr2]⟩
      · exact ⟨none, st, by simp [cachedMiss, htr2]⟩

/-- Witness for C9: the falsy value 0 stored under the key is treated as a
miss, so produce runs (flag true) and its truthy result 3 replaces the
entry. -/
theorem cached_falsy_values_witness :
    CacheService.cached jsNumberTruthy false false [("flag", (0 : ℚ), some 60)] "flag" 60
        (Except.ok (some (3 : ℚ)) : Except Unit (Option ℚ))
      = Except.ok (some 3, [("flag", (3 : ℚ), some 60)], true) := by
  have h := (cached_falsy_values jsNumberTruthy false false
    [("flag", (0 : ℚ), some 60)] "flag" 60
    (Except.ok (some (3 : ℚ)) : Except Unit (Option ℚ))).2.1 0 rfl (by decide)
  exact h

/-! ## Theorems: transaction workflow -/

/-- When the rates key misses in the cache and the provider call fails, the
cached fetch surfaces ServiceUnavailable. -/
theorem getCurrencyRates_provider_failure (env : CreateEnv)
    (hmiss : CacheService.get env.getFail env.cacheState CURRENCY_RATES.key = none)
    (hfail : env.fetchResult = Except.error ()) :
    TransactionService.getCurrencyRates env = Except.error AppError.serviceUnavailable := by
  simp [TransactionService.getCurrencyRates, CacheService.cached, hmiss, cachedMiss,
    fetchRatesFunc, hfail]

/-- C5: the reference-currency amount equals the amount unchanged when the
origin currency is INR - for every environment, hence regardless of the rate
table, which is not even fetched (flag false) - and equals
(amount / rates[currency]) * rates.INR otherwise. -/
theorem convertToINR_formula (env : CreateEnv) (amount : ℚ) (c : Currency) :
    (c = Currency.INR →
      TransactionService.convertToINR env amount c
        = Except.ok (amount, env.cacheState, false)) ∧
    (c ≠ Currency.INR → ∀ rates st2 b,
      TransactionService.getCurrencyRates env = Except.ok (some rates, st2, b) →
      TransactionService.convertToINR env amount c
        = Except.ok ((amount / rates c) * rates Currency.INR, st2, true)) := by
  constructor
  · intro h
    subst h
    rfl
  · intro h rates st2 b hrates
    unfold TransactionService.convertToINR
    rw [if_neg h, hrates]

/-- Concrete provider rate table: 1 unit of USD, 85 of INR per base. -/
def ratesW : RateTable := fun c =>
  match c with
  | Currency.USD => 1
  | _ => 85

/-- Environment whose cache already holds the rate table. -/
def envHit : CreateEnv where
  lockAvail := fun _ => true
  newToken := "tok-1"
  cacheState := [(CURRENCY_RATES.key, ratesW, some 3600)]
  getFail := false
  setFail := false
  fetchResult := Except.ok ratesW
  persistOk := true
  db := []
  now := ⟨2024, 1, 1, 0⟩

/-- Witness for C5: an INR amount is unchanged with no fetch; 5 USD at
rate 1 against INR rate 85 converts to 425. -/
theorem convertToINR_formula_witness :
    TransactionService.convertToINR envHit 7 Currency.INR
      = Except.ok (7, envHit.cacheState, false) ∧
    TransactionService.convertToINR envHit 5 Currency.USD
      = Except.ok (425, envHit.cacheState, true) := by
  constructor
  · exact (convertToINR_formula envHit 7 Currency.INR).1 rfl
  · have h := (convertToINR_formula envHit 5 Currency.USD).2 (by decide) ratesW
      envHit.cacheState false rfl
    rw [h]
    norm_num [ratesW]

/-- C3: once the lock is acquired, releaseLock is invoked with exactly the
acquisition key and token on every exit path of createTransaction; a
rate-provider failure surfaces as ServiceUnavailable with no record
persisted; and a conflict (no lock) aborts before any release or write. -/
theorem createTransaction_lock_and_abort (env : CreateEnv) (user : UserInfo)
    (dto : CreateTransactionDto) :
    ((DistributedLockService.acquireLock env.lockAvail env.newToken).1 = some env.newToken →
      (TransactionService.createTransaction env user dto).releaseCalls
        = [("transaction:" ++ user.storeId, env.newToken)]) ∧
    ((DistributedLockService.acquireLock env.lockAvail env.newToken).1 = none →
      (TransactionService.createTransaction env user dto).result
          = Except.error AppError.conflict ∧
      (TransactionService.createTransaction env user dto).releaseCalls = [] ∧
      (TransactionService.createTransaction env user dto).db = env.db) ∧
    (dto.currency ≠ Currency.INR →
      CacheService.get env.getFail env.cacheState CURRENCY_RATES.key = none →
      env.fetchResult = Except.error () →
      (DistributedLockService.acquireLock env.lockAvail env.newToken).1 = some env.newToken →
      (TransactionService.createTransaction env user dto).result
          = Except.error AppError.serviceUnavailable ∧
      (TransactionService.createTransaction env user dto).db = env.db) := by
  refine ⟨?_, ?_, ?_⟩
  · intro hacq
    unfold TransactionService.createTransaction
    rw [hacq]
    cases hconv : TransactionService.convertToINR env dto.amount dto.currency with
    | error e => simp
    | ok val =>
      obtain ⟨amountInINR, st2, b⟩ := val
      by_cases hp : env.persistOk
      · simp [hp]
      · simp [hp]
  · intro hacq
    unfold TransactionService.createTransaction
    rw [hacq]
    exact ⟨rfl, rfl, rfl⟩
  · intro hc hmiss hfail hacq
    have hrates := getCurrencyRates_provider_failure env hmiss hfail
    have hconv : TransactionService.convertToINR env dto.amount dto.currency
        = Except.error AppError.serviceUnavailable := by
      unfold TransactionService.convertToINR
      rw [if_neg hc, hrates]
    unfold TransactionService.createTransaction
    rw [hacq, hconv]
    exact ⟨rfl, rfl⟩

/-- Environment in which the provider call fails and the cache is empty. -/
def envFail : CreateEnv where
  lockAvail := fun _ => true
  newToken := "tok-9"
  cacheState := []
  getFail := false
  setFail := false
  fetchResult := Except.error ()
  persistOk := true
  db := []
  now := ⟨2024, 1, 1, 0⟩

/-- Witness for C3: with the lock acquired and the provider failing, the
call releases the lock with the acquisition key and token, surfaces
ServiceUnavailable and persists nothing. -/
theorem createTransaction_lock_and_abort_witness :
    (TransactionService.createTransaction envFail ⟨"user-1", "store-9"⟩
        ⟨5, none, TransactionType.credit, Currency.USD⟩).releaseCalls
      = [("transaction:store-9", "tok-9")] ∧
    (TransactionService.createTransaction envFail ⟨"user-1", "store-9"⟩
        ⟨5, none, TransactionType.credit, Currency.USD⟩).result
      = Except.error AppError.serviceUnavailable ∧
    (TransactionService.createTransaction envFail ⟨"user-1", "store-9"⟩
        ⟨5, none, TransactionType.credit, Currency.USD⟩).db = [] := by
  have h := createTransaction_lock_and_abort envFail ⟨"user-1", "store-9"⟩
    ⟨5, none, TransactionType.credit, Currency.USD⟩
  exact ⟨h.1 rfl, (h.2.2 (by decide) rfl rfl rfl).1, (h.2.2 (by decide) rfl rfl rfl).2⟩

/-! ## Theorems: report aggregator -/

/-- Monday 2024-01-01 credit of 100 INR. -/
def txMondayCredit : Transaction :=
  ⟨"store-1", 100, none, TransactionType.credit, Currency.INR, 100, "user-1",
    ⟨2024, 1, 1, 36000000⟩⟩

/-- Wednesday 2024-01-03 debit of 40 INR. -/
def txWednesdayDebit : Transaction :=
  ⟨"store-1", 40, none, TransactionType.debit, Currency.INR, 40, "user-1",
    ⟨2024, 1, 3, 36000000⟩⟩

/-- C1, evaluated at the failing input of the spec scenario: the summary of
the weekly report over a credit of 100 and a debit of 40 carries
totalCredit 100, totalDebit 40 and transactionCount 2, but its netFlow
field is absent (none), not 60: the summary aggregation computes no netFlow
and only the hard-coded empty fallback carries one. -/
theorem generateReport_summary_missing_netFlow :
    (TransactionService.generateReport [txMondayCredit, txWednesdayDebit] "store-1"
        DurationType.week ⟨2024, 1, 1, 0⟩).summary
      = ⟨100, 40, 2, none⟩ ∧
    (TransactionService.generateReport [txMondayCredit, txWednesdayDebit] "store-1"
        DurationType.week ⟨2024, 1, 1, 0⟩).summary.netFlow ≠ some 60 := by
  have hfilter : List.filter
      (matchFilter "store-1" ⟨2024, 1, 1, 0⟩ (jsSetDatePlus7 ⟨2024, 1, 1, 0⟩))
      [txMondayCredit, txWednesdayDebit] = [txMondayCredit, txWednesdayDebit] := by
    decide
  have hsummary : (TransactionService.generateReport [txMondayCredit, txWednesdayDebit]
      "store-1" DurationType.week ⟨2024, 1, 1, 0⟩).summary
      = ⟨100, 40, 2, none⟩ := by
    simp only [TransactionService.generateReport, TransactionService.calculateSummary,
      hfilter]
    simp [sumAmountOfType, txMondayCredit, txWednesdayDebit]
  refine ⟨hsummary, ?_⟩
  rw [hsummary]
  simp

/-- Total record count of one report bucket. -/
def bucketCount (b : Bucket) : Nat := (b.transactions.map TypeBucket.count).sum

/-- Total record count over a bucket list. -/
def bucketsCount (l : List Bucket) : Nat := (l.map bucketCount).sum

/-- Total record count over stage-one groups. -/
def stage1Count (l : List ((Nat × TransactionType) × ℚ × Nat)) : Nat :=
  (l.map (fun e => e.2.2)).sum

/-- Total amountInINR of one report bucket. -/
def bucketAmount (b : Bucket) : ℚ := (b.transactions.map TypeBucket.totalAmount).sum

/-- Total amountInINR over a bucket list. -/
def bucketsAmount (l : List Bucket) : ℚ := (l.map bucketAmount).sum

/-- Total amountInINR over stage-one groups. -/
def stage1Amount (l : List ((Nat × TransactionType) × ℚ × Nat)) : ℚ :=
  (l.map (fun e => e.2.1)).sum

/-- Total amountInINR over raw transactions. -/
def txAmountSum (ts : List Transaction) : ℚ := (ts.map Transaction.amountInINR).sum

/-- One stage-one upsert adds one to the total count. -/
theorem stage1Count_upsert (acc : List ((Nat × TransactionType) × ℚ × Nat))
    (k : Nat × TransactionType) (amt : ℚ) :
    stage1Count (upsertStage1 acc k amt) = stage1Count acc + 1 := by
  induction acc with
  | nil => simp [upsertStage1, stage1Count]
  | cons e rest ih =>
    obtain ⟨k2, a, c⟩ := e
    by_cases h : k2 = k
    · simp [upsertStage1, h, stage1Count]
      omega
    · simp [upsertStage1, h, stage1Count] at ih ⊢
      omega

/-- One stage-one upsert adds the document amount to the total amount. -/
theorem stage1Amount_upsert (acc : List ((Nat × TransactionType) × ℚ × Nat))
    (k : Nat × TransactionType) (amt : ℚ) :
    stage1Amount (upsertStage1 acc k amt) = stage1Amount acc + amt := by
  induction acc with
  | nil => simp [upsertStage1, stage1Amount]
  | cons e rest ih =>
    obtain ⟨k2, a, c⟩ := e
    by_cases h : k2 = k
    · simp [upsertStage1, h, stage1Amount]
      ring
    · simp [upsertStage1, h, stage1Amount] at ih ⊢
      rw [ih]
      ring

/-- Stage one counts exactly the matched documents. -/
theorem stage1Count_fold (gb : GroupBy) (ts : List Transaction) :
    ∀ acc, stage1Count (List.foldl
        (fun acc t => upsertStage1 acc (groupKeyOf gb t.createdAt, t.type) t.amountInINR)
        acc ts)
      = stage1Count acc + ts.length := by
  induction ts with
  | nil => intro acc; simp
  | cons t rest ih =>
    intro acc
    rw [List.foldl_cons, ih, stage1Count_upsert]
    simp
    omega

/-- Stage one sums exactly the matched amounts. -/
theorem stage1Amount_fold (gb : GroupBy) (ts : List Transaction) :
    ∀ acc, stage1Amount (List.foldl
        (fun acc t => upsertStage1 acc (groupKeyOf gb t.createdAt, t.type) t.amountInINR)
        acc ts)
      = stage1Amount acc + txAmountSum ts := by
  induction ts with
  | nil => intro acc; simp [txAmountSum]
  | cons t rest ih =>
    intro acc
    rw [List.foldl_cons, ih, stage1Amount_upsert]
    simp [txAmountSum]
    ring

/-- One stage-two upsert adds the pushed count to the total. -/
theorem bucketsCount_upsert2 (acc : List Bucket) (k : Nat) (tb : TypeBucket) :
    bucketsCount (upsertStage2 acc k tb) = bucketsCount acc + tb.count := by
  induction acc with
  | nil => simp [upsertStage2, bucketsCount, bucketCount]
  | cons b rest ih =>
    by_cases h : b.timePeriod = k
    · simp [upsertStage2, h, bucketsCount, bucketCount]
      omega
    · simp [upsertStage2, h, bucketsCount, bucketCount] at ih ⊢
      omega

/-- One stage-two upsert adds the pushed amount to the total. -/
theorem bucketsAmount_upsert2 (acc : List Bucket) (k : Nat) (tb : TypeBucket) :
    bucketsAmount (upsertStage2 acc k tb) = bucketsAmount acc + tb.totalAmount := by
  induction acc with
  | nil => simp [upsertStage2, bucketsAmount, bucketAmount]
  | cons b rest ih =>
    by_cases h : b.timePeriod = k
    · simp [upsertStage2, h, bucketsAmount, bucketAmount]
      ring
    · simp [upsertStage2, h, bucketsAmount, bucketAmount] at ih ⊢
      rw [ih]
      ring

/-- Stage two preserves the total count. -/
theorem bucketsCount_fold (l : List ((Nat × TransactionType) × ℚ × Nat)) :
    ∀ acc, bucketsCount (List.foldl
        (fun acc e => upsertStage2 acc e.1.1 ⟨e.1.2, e.2.1, e.2.2⟩) acc l)
      = bucketsCount acc + stage1Count l := by
  induction l with
  | nil => intro acc; simp [stage1Count]
  | cons e rest ih =>
    intro acc
    rw [List.foldl_cons, ih, bucketsCount_upsert2]
    simp [stage1Count]
    omega

/-- Stage two preserves the total amount. -/
theorem bucketsAmount_fold (l : List ((Nat × TransactionType) × ℚ × Nat)) :
    ∀ acc, bucketsAmount (List.foldl
        (fun acc e => upsertStage2 acc e.1.1 ⟨e.1.2, e.2.1, e.2.2⟩) acc l)
      = bucketsAmount acc + stage1Amount l := by
  induction l with
  | nil => intro acc; simp [stage1Amount]
  | cons e rest ih =>
    intro acc
    rw [List.foldl_cons, ih, bucketsAmount_upsert2]
    simp [stage1Amount]
    ring

/-- The sort stage permutes the buckets. -/
theorem sortDesc_perm (l : List Bucket) : List.Perm (sortDesc l) l :=
  List.perm_insertionSort bucketGE l

/-- The sort stage preserves the total count. -/
theorem bucketsCount_sortDesc (l : List Bucket) :
    bucketsCount (sortDesc l) = bucketsCount l :=
  List.Perm.sum_eq ((sortDesc_perm l).map bucketCount)

/-- The sort stage preserves the total amount. -/
theorem bucketsAmount_sortDesc (l : List Bucket) :
    bucketsAmount (sortDesc l) = bucketsAmount l :=
  List.Perm.sum_eq ((sortDesc_perm l).map bucketAmount)

/-- The sort stage leaves the buckets descending by time-period key. -/
theorem sortDesc_sorted (l : List Bucket) : List.Sorted bucketGE (sortDesc l) :=
  List.sorted_insertionSort bucketGE l

/-- Keys present after a stage-one upsert: the old keys plus the new one. -/
theorem mem_keys_upsert1 (acc : List ((Nat × TransactionType) × ℚ × Nat))
    (k : Nat × TransactionType) (amt : ℚ) (q : Nat × TransactionType) :
    q ∈ (upsertStage1 acc k amt).map (fun e => e.1)
      ↔ q ∈ acc.map (fun e => e.1) ∨ q = k := by
  induction acc with
  | nil => simp [upsertStage1]
  | cons e rest ih =>
    obtain ⟨k2, a, c⟩ := e
    by_cases h : k2 = k
    · have heq : upsertStage1 ((k2, a, c) :: rest) k amt = (k2, a + amt, c + 1) :: rest := by
        simp [upsertStage1, h]
      rw [heq]
      simp only [List.map_cons, List.mem_cons]
      rw [h]
      tauto
    · have heq : upsertStage1 ((k2, a, c) :: rest) k amt
          = (k2, a, c) :: upsertStage1 rest k amt := by
        simp [upsertStage1, h]
      rw [heq]
      simp only [List.map_cons, List.mem_cons]
      rw [ih]
      tauto

/-- Keys of the stage-one fold: accumulator keys plus one key per matched
document. -/
theorem mem_keys_stage1_fold (gb : GroupBy) (ts : List Transaction) :
    ∀ acc q, q ∈ (List.foldl
        (fun acc t => upsertStage1 acc (groupKeyOf gb t.createdAt, t.type) t.amountInINR)
        acc ts).map (fun e => e.1)
      ↔ q ∈ acc.map (fun e => e.1)
          ∨ ∃ t ∈ ts, (groupKeyOf gb t.createdAt, t.type) = q := by
  induction ts with
  | nil => intro acc q; simp
  | cons t rest ih =>
    intro acc q
    rw [List.foldl_cons, ih, mem_keys_upsert1]
    simp only [List.mem_cons, exists_eq_or_imp]
    constructor
    · rintro ((ha | hk) | ⟨t2, ht2, hq⟩)
      · exact Or.inl ha
      · exact Or.inr (Or.inl hk.symm)
      · exact Or.inr (Or.inr ⟨t2, ht2, hq⟩)
    · rintro (ha | hk | ⟨t2, ht2, hq⟩)
      · exact Or.inl (Or.inl ha)
      · exact Or.inl (Or.inr hk.symm)
      · exact Or.inr ⟨t2, ht2, hq⟩

/-- Keys of stage one are exactly the (timePeriod, type) pairs of the
matched documents. -/
theorem mem_keys_groupStage1 (gb : GroupBy) (ts : List Transaction)
    (q : Nat × TransactionType) :
    q ∈ (groupStage1 gb ts).map (fun e => e.1)
      ↔ ∃ t ∈ ts, (groupKeyOf gb t.createdAt, t.type) = q := by
  simpa [groupStage1] using mem_keys_stage1_fold gb ts [] q

/-- Bucket keys after a stage-two upsert: the old keys plus the new one. -/
theorem mem_keys_upsert2 (acc : List Bucket) (k : Nat) (tb : TypeBucket) (j : Nat) :
    j ∈ (upsertStage2 acc k tb).map Bucket.timePeriod
      ↔ j ∈ acc.map Bucket.timePeriod ∨ j = k := by
  induction acc with
  | nil => simp [upsertStage2]
  | cons b rest ih =>
    by_cases h : b.timePeriod = k
    · have heq : upsertStage2 (b :: rest) k tb
          = ⟨b.timePeriod, b.transactions ++ [tb]⟩ :: rest := by
        simp [upsertStage2, h]
      rw [heq]
      simp only [List.map_cons, List.mem_cons]
      rw [h]
      tauto
    · have heq : upsertStage2 (b :: rest) k tb = b :: upsertStage2 rest k tb := by
        simp [upsertStage2, h]
      rw [heq]
      simp only [List.map_cons, List.mem_cons]
      rw [ih]
      tauto

/-- Bucket keys of the stage-two fold. -/
theorem mem_keys_stage2_fold (l : List ((Nat × TransactionType) × ℚ × Nat)) :
    ∀ acc j, j ∈ (List.foldl
        (fun acc e => upsertStage2 acc e.1.1 ⟨e.1.2, e.2.1, e.2.2⟩) acc l).map
          Bucket.timePeriod
      ↔ j ∈ acc.map Bucket.timePeriod ∨ ∃ e ∈ l, e.1.1 = j := by
  induction l with
  | nil => intro acc j; simp
  | cons e rest ih =>
    intro acc j
    rw [List.foldl_cons, ih, mem_keys_upsert2]
    simp only [List.mem_cons, exists_eq_or_imp]
    constructor
    · rintro ((ha | hk) | ⟨e2, he2, hj⟩)
      · exact Or.inl ha
      · exact Or.inr (Or.inl hk.symm)
      · exact Or.inr (Or.inr ⟨e2, he2, hj⟩)
    · rintro (ha | hk | ⟨e2, he2, hj⟩)
      · exact Or.inl (Or.inl ha)
      · exact Or.inl (Or.inr hk.symm)
      · exact Or.inr ⟨e2, he2, hj⟩

/-- Bucket keys of stage two are the time periods of the stage-one groups. -/
theorem mem_keys_groupStage2 (l : List ((Nat × TransactionType) × ℚ × Nat)) (j : Nat) :
    j ∈ (groupStage2 l).map Bucket.timePeriod ↔ ∃ e ∈ l, e.1.1 = j := by
  simpa [groupStage2] using mem_keys_stage2_fold l [] j

/-- The sort stage preserves bucket keys. -/
theorem mem_keys_sortDesc (l : List Bucket) (j : Nat) :
    j ∈ (sortDesc l).map Bucket.timePeriod ↔ j ∈ l.map Bucket.timePeriod :=
  List.Perm.mem_iff ((sortDesc_perm l).map Bucket.timePeriod)

/-- The pipeline produces a bucket for a key exactly when some matched
document has that grouping key. -/
theorem report_buckets_keys (gb : GroupBy) (ts : List Transaction) (j : Nat) :
    (∃ b ∈ sortDesc (groupStage2 (groupStage1 gb ts)), b.timePeriod = j)
      ↔ ∃ t ∈ ts, groupKeyOf gb t.createdAt = j := by
  have h1 : (∃ b ∈ sortDesc (groupStage2 (groupStage1 gb ts)), b.timePeriod = j)
      ↔ j ∈ (sortDesc (groupStage2 (groupStage1 gb ts))).map Bucket.timePeriod := by
    simp [List.mem_map]
  rw [h1, mem_keys_sortDesc, mem_keys_groupStage2]
  constructor
  · rintro ⟨e, he, hej⟩
    obtain ⟨t, ht, hq⟩ := (mem_keys_groupStage1 gb ts e.1).mp (List.mem_map_of_mem _ he)
    refine ⟨t, ht, ?_⟩
    have hkey : groupKeyOf gb t.createdAt = e.1.1 := by rw [← hq]
    rw [hkey]
    exact hej
  · rintro ⟨t, ht, htj⟩
    obtain ⟨e, he, hq2⟩ := List.mem_map.mp
      ((mem_keys_groupStage1 gb ts _).mpr ⟨t, ht, rfl⟩)
    refine ⟨e, he, ?_⟩
    have hq3 : e.1 = (groupKeyOf gb t.createdAt, t.type) := hq2
    have hkey : e.1.1 = groupKeyOf gb t.createdAt := by rw [hq3]
    rw [hkey]
    exact htj

/-- Arithmetic characterization of the leap-year test. -/
theorem isLeap_iff (y : Nat) :
    isLeap y = true ↔ (y % 4 = 0 ∧ y % 100 ≠ 0) ∨ y % 400 = 0 := by
  unfold isLeap
  simp [Bool.or_eq_true, Bool.and_eq_true, decide_eq_true_eq, bne_iff_ne]

/-- Every month has at least 28 days. -/
theorem daysInMonth_ge (y m : Nat) : 28 ≤ daysInMonth y m := by
  unfold daysInMonth
  split <;> first | omega | (split <;> omega)

set_option maxHeartbeats 2000000 in
/-- One more calendar year adds 365 days plus the leap day. -/
theorem daysBeforeYear_succ (y : Nat) (hy : 1 ≤ y) :
    daysBeforeYear (y + 1) = daysBeforeYear y + 365 + leapDay y := by
  by_cases h : isLeap y = true
  · have h2 := (isLeap_iff y).mp h
    have hl : leapDay y = 1 := by
      unfold leapDay
      rw [h]
      rfl
    rw [hl]
    unfold daysBeforeYear
    omega
  · have h2 : ¬ ((y % 4 = 0 ∧ y % 100 ≠ 0) ∨ y % 400 = 0) :=
      fun hc => h ((isLeap_iff y).mpr hc)
    have h3 : isLeap y = false := by
      cases hb : isLeap y
      · rfl
      · exact absurd hb h
    have hl : leapDay y = 0 := by
      unfold leapDay
      rw [h3]
      rfl
    rw [hl]
    unfold daysBeforeYear
    omega

/-- One more month adds exactly the day count of that month to the
cumulative table. -/
theorem daysBeforeMonth_succ (y m : Nat) (h1 : 1 ≤ m) (h2 : m ≤ 11) :
    daysBeforeMonth y (m + 1) = daysBeforeMonth y m + daysInMonth y m := by
  rcases Bool.eq_false_or_eq_true (isLeap y) with h | h <;>
    interval_cases m <;>
    simp [daysBeforeMonth, daysInMonth, leapDay, h]

/-- Rolling a day overflow into the following month preserves the day
ordinal. -/
theorem ordinal_rollMonth_sub (y m d ms : Nat) (hy : 1 ≤ y) (h1 : 1 ≤ m)
    (h2 : m ≤ 12) (hd : daysInMonth y m < d) :
    DateTime.ordinal ⟨(rollMonth y m).1, (rollMonth y m).2, d - daysInMonth y m, ms⟩
      = DateTime.ordinal ⟨y, m, d, ms⟩ := by
  by_cases hm : m = 12
  · subst hm
    have hdim : daysInMonth y 12 = 31 := rfl
    have hroll : rollMonth y 12 = (y + 1, 1) := rfl
    rw [hroll]
    show daysBeforeYear (y + 1) + daysBeforeMonth (y + 1) 1 + (d - daysInMonth y 12 - 1)
        = daysBeforeYear y + daysBeforeMonth y 12 + (d - 1)
    have hb1 : daysBeforeMonth (y + 1) 1 = 0 := rfl
    have hb12 : daysBeforeMonth y 12 = 334 + leapDay y := rfl
    rw [daysBeforeYear_succ y hy, hb1, hb12, hdim]
    rw [hdim] at hd
    omega
  · have hroll : rollMonth y m = (y, m + 1) := by simp [rollMonth, hm]
    rw [hroll]
    show daysBeforeYear y + daysBeforeMonth y (m + 1) + (d - daysInMonth y m - 1)
        = daysBeforeYear y + daysBeforeMonth y m + (d - 1)
    rw [daysBeforeMonth_succ y m h1 (by omega)]
    omega

/-- A day within the month is left unchanged by normalization. -/
theorem normDays_succ_le (fuel y m d ms : Nat) (h : d ≤ daysInMonth y m) :
    normDays (fuel + 1) y m d ms = ⟨y, m, d, ms⟩ := by
  unfold normDays
  simp [h]

/-- An overflowing day spills into the following month. -/
theorem normDays_succ_gt (fuel y m d ms : Nat) (h : ¬ d ≤ daysInMonth y m) :
    normDays (fuel + 1) y m d ms
      = normDays fuel (rollMonth y m).1 (rollMonth y m).2 (d - daysInMonth y m) ms := by
  conv_lhs => unfold normDays
  simp [h]

/-- setDate(getDate() + 7) advances a well-formed date by exactly seven
days and keeps the time of day. -/
theorem jsSetDatePlus7_plus7 (dt : DateTime) (hy : 1 ≤ dt.year) (h1 : 1 ≤ dt.month)
    (h2 : dt.month ≤ 12) (hd1 : 1 ≤ dt.day)
    (hd2 : dt.day ≤ daysInMonth dt.year dt.month) :
    DateTime.ordinal (jsSetDatePlus7 dt) = DateTime.ordinal dt + 7 ∧
    (jsSetDatePlus7 dt).ms = dt.ms := by
  obtain ⟨y, m, d, ms⟩ := dt
  dsimp only at hy h1 h2 hd1 hd2
  by_cases h : d + 7 ≤ daysInMonth y m
  · have heval : jsSetDatePlus7 ⟨y, m, d, ms⟩ = ⟨y, m, d + 7, ms⟩ := by
      show normDays (1 + 1) y m (d + 7) ms = _
      rw [normDays_succ_le 1 y m (d + 7) ms h]
    rw [heval]
    constructor
    · show daysBeforeYear y + daysBeforeMonth y m + (d + 7 - 1)
          = daysBeforeYear y + daysBeforeMonth y m + (d - 1) + 7
      omega
    · rfl
  · have hd3 : d + 7 - daysInMonth y m
        ≤ daysInMonth (rollMonth y m).1 (rollMonth y m).2 := by
      have := daysInMonth_ge (rollMonth y m).1 (rollMonth y m).2
      omega
    have heval : jsSetDatePlus7 ⟨y, m, d, ms⟩
        = ⟨(rollMonth y m).1, (rollMonth y m).2, d + 7 - daysInMonth y m, ms⟩ := by
      show normDays (1 + 1) y m (d + 7) ms = _
      rw [normDays_succ_gt 1 y m (d + 7) ms h]
      show normDays (0 + 1) (rollMonth y m).1 (rollMonth y m).2
          (d + 7 - daysInMonth y m) ms = _
      rw [normDays_succ_le 0 _ _ _ _ hd3]
    rw [heval]
    constructor
    · rw [ordinal_rollMonth_sub y m (d + 7) ms hy h1 h2 (by omega)]
      show daysBeforeYear y + daysBeforeMonth y m + (d + 7 - 1)
          = daysBeforeYear y + daysBeforeMonth y m + (d - 1) + 7
      omega
    · rfl

/-- setMonth(getMonth() + 1) moves to the next calendar month with the day
and time of day unchanged whenever the day does not overflow the target
month. -/
theorem jsSetMonthPlus1_eval (dt : DateTime)
    (h : dt.day ≤ daysInMonth (rollMonth dt.year dt.month).1
        (rollMonth dt.year dt.month).2) :
    jsSetMonthPlus1 dt
      = ⟨(rollMonth dt.year dt.month).1, (rollMonth dt.year dt.month).2,
          dt.day, dt.ms⟩ := by
  obtain ⟨y, m, d, ms⟩ := dt
  dsimp only at h
  show normDays (1 + 1) (rollMonth y m).1 (rollMonth y m).2 d ms = _
  rw [normDays_succ_le 1 _ _ _ _ h]

/-- Stage two preserves the pipeline total count. -/
theorem bucketsCount_groupStage2 (l : List ((Nat × TransactionType) × ℚ × Nat)) :
    bucketsCount (groupStage2 l) = stage1Count l := by
  simpa [groupStage2, bucketsCount] using bucketsCount_fold l []

/-- Stage one counts the matched documents. -/
theorem stage1Count_groupStage1 (gb : GroupBy) (ts : List Transaction) :
    stage1Count (groupStage1 gb ts) = ts.length := by
  simpa [groupStage1, stage1Count] using stage1Count_fold gb ts []

/-- Stage two preserves the pipeline total amount. -/
theorem bucketsAmount_groupStage2 (l : List ((Nat × TransactionType) × ℚ × Nat)) :
    bucketsAmount (groupStage2 l) = stage1Amount l := by
  simpa [groupStage2, bucketsAmount] using bucketsAmount_fold l []

/-- Stage one sums the matched amounts. -/
theorem stage1Amount_groupStage1 (gb : GroupBy) (ts : List Transaction) :
    stage1Amount (groupStage1 gb ts) = txAmountSum ts := by
  simpa [groupStage1, stage1Amount, txAmountSum] using stage1Amount_fold gb ts []

/-- The endDate computation of generateReport: plus seven days for a week,
plus one JavaScript month for a month. -/
def reportEndDate (dt : DurationType) (start : DateTime) : DateTime :=
  match dt with
  | DurationType.week => jsSetDatePlus7 start
  | DurationType.month => jsSetMonthPlus1 start

/-- C8: generateReport computes the exclusive endDate as startDate advanced
by 7 days (durationType week, exactly seven day ordinals for well-formed
dates, time of day kept) or by one JavaScript calendar month (durationType
month); its buckets draw exactly from the transactions of the store with
createdAt in the half-open interval from startDate to endDate - same total
record count and amountInINR sum, and a bucket key exists exactly when a
matched transaction has that grouping key - and the buckets are sorted
descending by the grouping key. -/
theorem generateReport_range_and_order (db : List Transaction) (storeId : String)
    (dt : DurationType) (start : DateTime) (gb : GroupBy) (r : Report)
    (matched : List Transaction)
    (hr : r = TransactionService.generateReport db storeId dt start gb)
    (hm : matched = List.filter (matchFilter storeId start r.endDate) db) :
    r.endDate = reportEndDate dt start ∧
    (dt = DurationType.week → 1 ≤ start.year → 1 ≤ start.month → start.month ≤ 12 →
      1 ≤ start.day → start.day ≤ daysInMonth start.year start.month →
      DateTime.ordinal r.endDate = DateTime.ordinal start + 7
        ∧ r.endDate.ms = start.ms) ∧
    bucketsCount r.transactions = matched.length ∧
    bucketsAmount r.transactions = txAmountSum matched ∧
    (∀ j, (∃ b ∈ r.transactions, b.timePeriod = j)
        ↔ ∃ t ∈ matched, groupKeyOf gb t.createdAt = j) ∧
    List.Sorted bucketGE r.transactions := by
  subst hr
  have hend : (TransactionService.generateReport db storeId dt start gb).endDate
      = reportEndDate dt start := by
    cases dt <;> rfl
  have htrans : (TransactionService.generateReport db storeId dt start gb).transactions
      = sortDesc (groupStage2 (groupStage1 gb (List.filter (matchFilter storeId start
          ((TransactionService.generateReport db storeId dt start gb).endDate)) db))) := by
    cases dt <;> rfl
  subst hm
  refine ⟨hend, ?_, ?_, ?_, ?_, ?_⟩
  · intro hdt hy h1 h2 hd1 hd2
    subst hdt
    rw [hend]
    exact jsSetDatePlus7_plus7 start hy h1 h2 hd1 hd2
  · rw [htrans, bucketsCount_sortDesc, bucketsCount_groupStage2, stage1Count_groupStage1]
  · rw [htrans, bucketsAmount_sortDesc, bucketsAmount_groupStage2, stage1Amount_groupStage1]
  · intro j
    rw [htrans]
    exact report_buckets_keys gb _ j
  · rw [htrans]
    exact sortDesc_sorted _

/-- Witness for C8 at the concrete week scenario: endDate 2024-01-08, two
records counted over the matched set, buckets sorted descending. -/
theorem generateReport_range_and_order_witness :
    (TransactionService.generateReport [txMondayCredit, txWednesdayDebit] "store-1"
        DurationType.week ⟨2024, 1, 1, 0⟩).endDate = ⟨2024, 1, 8, 0⟩ ∧
    bucketsCount (TransactionService.generateReport [txMondayCredit, txWednesdayDebit]
        "store-1" DurationType.week ⟨2024, 1, 1, 0⟩).transactions = 2 ∧
    List.Sorted bucketGE (TransactionService.generateReport
        [txMondayCredit, txWednesdayDebit] "store-1" DurationType.week
        ⟨2024, 1, 1, 0⟩).transactions := by
  have h := generateReport_range_and_order [txMondayCredit, txWednesdayDebit] "store-1"
    DurationType.week ⟨2024, 1, 1, 0⟩ GroupBy.dayOfWeek _ _ rfl rfl
  refine ⟨?_, ?_, h.2.2.2.2.2⟩
  · rw [h.1]
    decide
  · rw [h.2.2.1]
    decide

/-- Every bucket of a day-of-week-grouped pipeline has a key between 1
(Sunday) and 7 (Saturday). -/
theorem pipeline_dayOfWeek_range (ts : List Transaction) :
    ∀ b ∈ sortDesc (groupStage2 (groupStage1 GroupBy.dayOfWeek ts)),
      1 ≤ b.timePeriod ∧ b.timePeriod ≤ 7 := by
  intro b hb
  obtain ⟨t, _, ht⟩ :=
    (report_buckets_keys GroupBy.dayOfWeek ts b.timePeriod).mp ⟨b, hb, rfl⟩
  have hx : b.timePeriod = (DateTime.ordinal t.createdAt + 1) % 7 + 1 := by
    rw [← ht]
    rfl
  omega

/-- C10: the public weekly and monthly report endpoints pass no groupBy
argument, so both resolve to generateReport with the day-of-week default;
consequently every bucket of every report reachable through them - the
monthly report included - is keyed by day-of-week (a value from 1 to 7),
never by month or year. -/
theorem controller_reports_dayOfWeek (db : List Transaction) (storeId : String)
    (date : DateTime) :
    TransactionController.getWeeklyReport db storeId date
      = TransactionService.generateReport db storeId DurationType.week date
          GroupBy.dayOfWeek ∧
    TransactionController.getMonthlyReport db storeId date
      = TransactionService.generateReport db storeId DurationType.month date
          GroupBy.dayOfWeek ∧
    (∀ b ∈ (TransactionController.getWeeklyReport db storeId date).transactions,
      1 ≤ b.timePeriod ∧ b.timePeriod ≤ 7) ∧
    (∀ b ∈ (TransactionController.getMonthlyReport db storeId date).transactions,
      1 ≤ b.timePeriod ∧ b.timePeriod ≤ 7) := by
  refine ⟨rfl, rfl, ?_, ?_⟩
  · intro b hb
    have htrans : (TransactionController.getWeeklyReport db storeId date).transactions
        = sortDesc (groupStage2 (groupStage1 GroupBy.dayOfWeek
            (List.filter (matchFilter storeId date (jsSetDatePlus7 date)) db))) := rfl
    rw [htrans] at hb
    exact pipeline_dayOfWeek_range _ b hb
  · intro b hb
    have htrans : (TransactionController.getMonthlyReport db storeId date).transactions
        = sortDesc (groupStage2 (groupStage1 GroupBy.dayOfWeek
            (List.filter (matchFilter storeId date (jsSetMonthPlus1 date)) db))) := rfl
    rw [htrans] at hb
    exact pipeline_dayOfWeek_range _ b hb

/-- Witness for C10: both endpoints at the concrete scenario resolve to
day-of-week grouping. -/
theorem controller_reports_dayOfWeek_witness :
    TransactionController.getMonthlyReport [txMondayCredit, txWednesdayDebit] "store-1"
        ⟨2024, 1, 1, 0⟩
      = TransactionService.generateReport [txMondayCredit, txWednesdayDebit] "store-1"
          DurationType.month ⟨2024, 1, 1, 0⟩ GroupBy.dayOfWeek ∧
    TransactionController.getWeeklyReport [txMondayCredit, txWednesdayDebit] "store-1"
        ⟨2024, 1, 1, 0⟩
      = TransactionService.generateReport [txMondayCredit, txWednesdayDebit] "store-1"
          DurationType.week ⟨2024, 1, 1, 0⟩ GroupBy.dayOfWeek := by
  have h := controller_reports_dayOfWeek [txMondayCredit, txWednesdayDebit] "store-1"
    ⟨2024, 1, 1, 0⟩
  exact ⟨h.2.1, h.1⟩
